import Mathlib

/-!
Verification of the Prometheus alert normalization component of
`src/robusta/integrations/prometheus/models.py`.

The data model and operations are shallowly embedded:
* Python dictionaries are association lists read through `List.lookup`;
  the `labels`/`annotations` maps the normalization methods consult are
  `List (String × String)`, per the opaque-string treatment of spec §3.
* `re.sub(r"LABELS = map\[.*\]$", "", d)` is embedded over `List Char`
  with the exact semantics of the Python `re` module for this pattern:
  `.` never matches a newline, `.*` is greedy, `$` (without MULTILINE)
  matches at the end of the string or just before one final trailing
  newline, and `re.sub` removes the leftmost match.
* Fallible attribute access (`self.alert` may be `None`) is modelled with
  `Option`: a method that would raise `AttributeError` returns `none`.
* Pydantic payload parsing is modelled over a JSON-like value type. The
  `Dict[Any, Any]` fields keep their values as arbitrary JSON values,
  exactly as pydantic does; the datetime grammar pydantic applies to the
  per-alert `startsAt`/`endsAt` strings is abstracted as a Boolean
  validator parameter, and the decode characterization is proved
  uniformly in that parameter. The normalization methods are specified
  over the opaque-string restriction of the record stated by spec §3.
-/

namespace Robusta

/-- Modelled from the spec: the severity enumeration of `core.reporting`
(`FindingSeverity`), ordered INFO < LOW < MEDIUM < HIGH; only the four
members used by the severity map appear in this fragment. -/
inductive FindingSeverity where
  | INFO
  | LOW
  | MEDIUM
  | HIGH
deriving DecidableEq

/-- Modelled from the spec: the subject-kind enumeration of
`core.reporting` (`FindingSubjectType`): NONE, POD, JOB, DEPLOYMENT,
DAEMONSET, NODE. -/
inductive FindingSubjectType where
  | TYPE_NONE
  | TYPE_POD
  | TYPE_JOB
  | TYPE_DEPLOYMENT
  | TYPE_DAEMONSET
  | TYPE_NODE
deriving DecidableEq

/-- Modelled from the spec: the fixed source tag; only PROMETHEUS occurs
in this fragment. -/
inductive FindingSource where
  | PROMETHEUS
deriving DecidableEq

/-- Modelled from the spec: `FindingSubject(name, subject_type, namespace)`
of `core.reporting`, a plain record of the three constructor arguments. -/
structure FindingSubject where
  name : Option String
  subject_type : FindingSubjectType
  namespace' : Option String
deriving DecidableEq

/-- Modelled from the spec: the `Finding` record of `core.reporting`,
restricted to the keyword arguments `create_default_finding` passes. -/
structure Finding where
  title : String
  description : String
  source : FindingSource
  aggregation_key : Option String
  severity : FindingSeverity
  subject : FindingSubject
deriving DecidableEq

/-- Kubernetes resource metadata as used by `__get_alert_subject`: only
`metadata.name` and `metadata.namespace` are read. -/
structure ObjectMeta where
  name : Option String
  namespace' : Option String
deriving DecidableEq

/-- A resolved Kubernetes resource reference (pod, job, deployment,
daemonset or node); `__get_alert_subject` only reads its `metadata`. -/
structure KubeResource where
  metadata : ObjectMeta
deriving DecidableEq

/-- A decoded JSON value, as handed to the pydantic models. Numbers and
booleans are omitted from the modelled input space: every leaf the
component reads is treated as an opaque string (spec §3). -/
inductive Json where
  | null : Json
  | str : String → Json
  | arr : List Json → Json
  | obj : List (String × Json) → Json

/-- `PrometheusAlert` (pydantic model) under the opaque-string treatment
of spec §3, over which the normalization methods are specified:
`labels`/`annotations` values are opaque strings. Timestamps are kept as
the strings they were parsed from; `fingerprint` is
`Optional[str] = ""`. -/
structure PrometheusAlert where
  endsAt : String
  generatorURL : String
  startsAt : String
  fingerprint : Option String
  status : String
  labels : List (String × String)
  annotations : List (String × String)
deriving DecidableEq

/-- `PrometheusAlert` as parsed by pydantic: the `Dict[Any, Any]` fields
`labels` and `annotations` hold values of any JSON type, exactly as the
source's type annotation admits. -/
structure PrometheusAlertRaw where
  endsAt : String
  generatorURL : String
  startsAt : String
  fingerprint : Option String
  status : String
  labels : List (String × Json)
  annotations : List (String × Json)

/-- `AlertManagerEvent` (pydantic model): the webhook payload; its
`Optional[Dict[Any, Any]]` maps hold values of any JSON type. -/
structure AlertManagerEvent where
  alerts : List PrometheusAlertRaw
  externalURL : String
  groupKey : String
  version : String
  commonAnnotations : Option (List (String × Json))
  commonLabels : Option (List (String × Json))
  groupLabels : Option (List (String × Json))
  receiver : String
  status : String

/-- `PrometheusKubernetesAlert` (dataclass): every field is optional. -/
structure PrometheusKubernetesAlert where
  alert : Option PrometheusAlert := none
  alert_name : Option String := none
  alert_severity : Option String := none
  node : Option KubeResource := none
  pod : Option KubeResource := none
  deployment : Option KubeResource := none
  job : Option KubeResource := none
  daemonset : Option KubeResource := none
deriving DecidableEq

/-- `SEVERITY_MAP`: the static severity lookup table. -/
def SEVERITY_MAP : List (String × FindingSeverity) :=
  [("critical", FindingSeverity.HIGH),
   ("error", FindingSeverity.MEDIUM),
   ("warning", FindingSeverity.LOW),
   ("info", FindingSeverity.INFO)]

/-- `SEVERITY_MAP.get(k, FindingSeverity.INFO)` where `k` is the result of
`labels.get("severity")` (`none` when the label is absent; Python
`dict.get(None, default)` returns the default). -/
def severityGet (k : Option String) : FindingSeverity :=
  match k with
  | none => FindingSeverity.INFO
  | some s => (SEVERITY_MAP.lookup s).getD FindingSeverity.INFO

/-- Python truthiness of `d.get(key)` for a string-valued dict: falsy
exactly when the key is absent or its value is the empty string. -/
def truthyStr : Option String → Bool
  | none => false
  | some s => decide (s ≠ "")

/-- The literal prefix of the stripped pattern, `LABELS = map[`. -/
def labelsPat : List Char := "LABELS = map[".data

/-- A position `q` where the `$` anchor (no MULTILINE) holds: the end of
the string, or just before one final trailing newline. -/
def validEnd (s : List Char) (q : Nat) : Bool :=
  decide (q = s.length) ||
    (decide (q + 1 = s.length) && decide (s.getD q ' ' = '\n'))

/-- `matchCond s p q`: the regex `LABELS = map\[.*\]$` matches the span
`[p, q)` of `s`: the literal prefix at `p`, then any characters other
than newline, then `]` at `q - 1`, with `q` an end anchor. -/
def matchCond (s : List Char) (p q : Nat) : Bool :=
  decide ((s.drop p).take 13 = labelsPat) &&
  decide (p + 14 ≤ q) &&
  decide (s.getD (q - 1) ' ' = ']') &&
  decide ('\n' ∉ (s.take (q - 1)).drop (p + 13)) &&
  validEnd s q

/-- The span matched at start position `p`, if any; the greedy `.*`
prefers the longer span. (At most one of the two candidate ends can
match, since one needs `]` and the other a newline as last character.) -/
def matchSpanAt (s : List Char) (p : Nat) : Option Nat :=
  if matchCond s p s.length then some s.length
  else if matchCond s p (s.length - 1) then some (s.length - 1)
  else none

/-- Leftmost match search, as the `re` module scans: try each start
position in increasing order. -/
def findMatchFrom (s : List Char) : Nat → Nat → Option (Nat × Nat)
  | _, 0 => none
  | p, fuel + 1 =>
    match matchSpanAt s p with
    | some q => some (p, q)
    | none => findMatchFrom s (p + 1) fuel

/-- The leftmost match of `LABELS = map\[.*\]$` in `s`, if any. -/
def findMatch (s : List Char) : Option (Nat × Nat) :=
  findMatchFrom s 0 (s.length + 1)

/-- `re.sub(r"LABELS = map\[.*\]$", "", s)`: remove the leftmost match
(at most one match exists, as the pattern is end-anchored). -/
def stripLabels (s : List Char) : List Char :=
  match findMatch s with
  | none => s
  | some (p, q) => s.take p ++ s.drop q

/-- `get_title`: the `summary` annotation when truthy, else the
`alertname` label with default `""`. Returns `none` when `self.alert`
is `None` (the Python code would raise `AttributeError`). -/
def PrometheusKubernetesAlert.get_title (e : PrometheusKubernetesAlert) :
    Option String :=
  e.alert.map fun alert =>
    if truthyStr (alert.annotations.lookup "summary") then
      (alert.annotations.lookup "summary").getD ""
    else
      (alert.labels.lookup "alertname").getD ""

/-- `get_description`: `""` unless the `description` annotation is truthy,
in which case the trailing `LABELS = map[...]` pattern is stripped.
Returns `none` when `self.alert` is `None`. -/
def PrometheusKubernetesAlert.get_description
    (e : PrometheusKubernetesAlert) : Option String :=
  e.alert.map fun alert =>
    if truthyStr (alert.annotations.lookup "description") then
      String.mk (stripLabels ((alert.annotations.lookup "description").getD "").data)
    else
      ""

/-- `__get_alert_subject`: priority order pod, job, deployment, daemonset,
node; the node branch leaves the namespace `None`. -/
def PrometheusKubernetesAlert.get_alert_subject
    (e : PrometheusKubernetesAlert) : FindingSubject :=
  match e.pod with
  | some pod => ⟨pod.metadata.name, FindingSubjectType.TYPE_POD, pod.metadata.namespace'⟩
  | none =>
    match e.job with
    | some job => ⟨job.metadata.name, FindingSubjectType.TYPE_JOB, job.metadata.namespace'⟩
    | none =>
      match e.deployment with
      | some deployment =>
        ⟨deployment.metadata.name, FindingSubjectType.TYPE_DEPLOYMENT, deployment.metadata.namespace'⟩
      | none =>
        match e.daemonset with
        | some daemonset =>
          ⟨daemonset.metadata.name, FindingSubjectType.TYPE_DAEMONSET, daemonset.metadata.namespace'⟩
        | none =>
          match e.node with
          | some node => ⟨node.metadata.name, FindingSubjectType.TYPE_NODE, none⟩
          | none => ⟨none, FindingSubjectType.TYPE_NONE, none⟩

/-- `create_default_finding`: assembles the `Finding`. Returns `none` when
`self.alert` is `None` (attribute access on `None` would raise). -/
def PrometheusKubernetesAlert.create_default_finding
    (e : PrometheusKubernetesAlert) : Option Finding :=
  match e.get_title, e.get_description, e.alert with
  | some title, some description, some alert =>
    some
      { title := title
        description := description
        source := FindingSource.PROMETHEUS
        aggregation_key := e.alert_name
        severity := severityGet (alert.labels.lookup "severity")
        subject := e.get_alert_subject }
  | _, _, _ => none

example : severityGet (some "critical") = FindingSeverity.HIGH := by decide
example : severityGet none = FindingSeverity.INFO := by decide
example :
    stripLabels "Pod crashed LABELS = map[severity:critical]".data
      = "Pod crashed ".data := by decide

/-- Whether an `Except` result is a success (`isOk`). -/
def isOkE {α : Type} : Except String α → Bool
  | Except.ok _ => true
  | Except.error _ => false

/-- A required `str` field: absent or non-string raises a validation
error. (Within the modelled JSON space — no numeric leaves — this is
exactly pydantic v1's `str` validator.) -/
def reqStr (fs : List (String × Json)) (k : String) : Except String String :=
  match fs.lookup k with
  | some (Json.str v) => Except.ok v
  | some _ => Except.error ("mistyped field " ++ k)
  | none => Except.error ("missing field " ++ k)

/-- A required `datetime` field (`startsAt`, `endsAt`): pydantic parses
the string with its datetime grammar, rejecting strings outside it. That
grammar is abstracted as the validator `isDT`; every statement about the
parser is proved uniformly in `isDT`, so it holds in particular at the
grammar the library implements. A non-string value is a validation
error. -/
def reqDatetime (isDT : String → Bool) (fs : List (String × Json))
    (k : String) : Except String String :=
  match fs.lookup k with
  | some (Json.str v) =>
    if isDT v then Except.ok v
    else Except.error ("invalid datetime in field " ++ k)
  | some _ => Except.error ("mistyped field " ++ k)
  | none => Except.error ("missing field " ++ k)

/-- A required `Dict[Any, Any]` field (`labels`, `annotations`): any
object is accepted and its values are kept as they are; a non-object is
a validation error. -/
def reqAnyDict (fs : List (String × Json)) (k : String) :
    Except String (List (String × Json)) :=
  match fs.lookup k with
  | some (Json.obj entries) => Except.ok entries
  | some _ => Except.error ("mistyped field " ++ k)
  | none => Except.error ("missing field " ++ k)

/-- An `Optional[Dict[Any, Any]] = None` field: absent or `null` yields
`none`; any object is accepted; anything else is a validation error. -/
def optAnyDict (fs : List (String × Json)) (k : String) :
    Except String (Option (List (String × Json))) :=
  match fs.lookup k with
  | none => Except.ok none
  | some Json.null => Except.ok none
  | some (Json.obj entries) => Except.ok (some entries)
  | some _ => Except.error ("mistyped field " ++ k)

/-- `fingerprint: Optional[str] = ""`: absent defaults to `""`, an
explicit `null` is permitted by the `Optional` type and yields `none`. -/
def optFingerprint (fs : List (String × Json)) : Except String (Option String) :=
  match fs.lookup "fingerprint" with
  | none => Except.ok (some "")
  | some Json.null => Except.ok none
  | some (Json.str v) => Except.ok (some v)
  | some _ => Except.error "mistyped field fingerprint"

/-- Parse one element of `alerts` into a `PrometheusAlertRaw`; `isDT` is
the datetime grammar applied to `endsAt`/`startsAt`. -/
def parsePrometheusAlert (isDT : String → Bool) (j : Json) :
    Except String PrometheusAlertRaw :=
  match j with
  | Json.obj fs => do
    let endsAt ← reqDatetime isDT fs "endsAt"
    let generatorURL ← reqStr fs "generatorURL"
    let startsAt ← reqDatetime isDT fs "startsAt"
    let fingerprint ← optFingerprint fs
    let status ← reqStr fs "status"
    let labels ← reqAnyDict fs "labels"
    let annots ← reqAnyDict fs "annotations"
    Except.ok
      { endsAt := endsAt
        generatorURL := generatorURL
        startsAt := startsAt
        fingerprint := fingerprint
        status := status
        labels := labels
        annotations := annots }
  | _ => Except.error "alert is not an object"

/-- Parse each element of the `alerts` array in order. -/
def parseAlerts (isDT : String → Bool) :
    List Json → Except String (List PrometheusAlertRaw)
  | [] => Except.ok []
  | j :: rest => do
    let a ← parsePrometheusAlert isDT j
    let more ← parseAlerts isDT rest
    Except.ok (a :: more)

/-- `alerts: List[PrometheusAlert] = []`: absent defaults to `[]`; a
non-array value (including `null`) is a validation error. -/
def alertsField (isDT : String → Bool) (fs : List (String × Json)) :
    Except String (List PrometheusAlertRaw) :=
  match fs.lookup "alerts" with
  | none => Except.ok []
  | some (Json.arr js) => parseAlerts isDT js
  | some _ => Except.error "mistyped field alerts"

/-- Parse the webhook payload into an `AlertManagerEvent`, with `isDT`
the datetime grammar for the per-alert timestamp fields. -/
def parseAlertManagerEventWith (isDT : String → Bool) (j : Json) :
    Except String AlertManagerEvent :=
  match j with
  | Json.obj fs => do
    let alerts ← alertsField isDT fs
    let externalURL ← reqStr fs "externalURL"
    let groupKey ← reqStr fs "groupKey"
    let version ← reqStr fs "version"
    let commonAnnots ← optAnyDict fs "commonAnnotations"
    let commonLabels ← optAnyDict fs "commonLabels"
    let groupLabels ← optAnyDict fs "groupLabels"
    let receiver ← reqStr fs "receiver"
    let status ← reqStr fs "status"
    Except.ok
      { alerts := alerts
        externalURL := externalURL
        groupKey := groupKey
        version := version
        commonAnnotations := commonAnnots
        commonLabels := commonLabels
        groupLabels := groupLabels
        receiver := receiver
        status := status }
  | _ => Except.error "payload is not an object"

/-- The event parser at the trivial timestamp validator.
`AlertManagerEvent` itself declares no datetime field — the validator is
consulted only inside elements of `alerts` — so on payloads whose
`alerts` field is absent this instance coincides with the parser at
every validator, the library's included. -/
def parseAlertManagerEvent (j : Json) : Except String AlertManagerEvent :=
  parseAlertManagerEventWith (fun _ => true) j

/-- Spec-side: the required field `k` is present as a string. -/
def strFieldOk (fs : List (String × Json)) (k : String) : Bool :=
  match fs.lookup k with
  | some (Json.str _) => true
  | _ => false

/-- Spec-side: the required datetime field `k` is present as a string
the datetime grammar `isDT` accepts. -/
def dtFieldOk (isDT : String → Bool) (fs : List (String × Json))
    (k : String) : Bool :=
  match fs.lookup k with
  | some (Json.str v) => isDT v
  | _ => false

/-- Spec-side: the required map field `k` is present as an object. -/
def anyDictFieldOk (fs : List (String × Json)) (k : String) : Bool :=
  match fs.lookup k with
  | some (Json.obj _) => true
  | _ => false

/-- Spec-side: the optional `fingerprint` field is well typed (absent,
`null`, or a string). -/
def fingerprintOk (fs : List (String × Json)) : Bool :=
  match fs.lookup "fingerprint" with
  | none => true
  | some Json.null => true
  | some (Json.str _) => true
  | some _ => false

/-- Spec-side: the optional map field `k` is well typed (absent, `null`,
or an object). -/
def optAnyDictOk (fs : List (String × Json)) (k : String) : Bool :=
  match fs.lookup k with
  | none => true
  | some Json.null => true
  | some (Json.obj _) => true
  | some _ => false

/-- Spec-side: every required per-alert field is present and well typed
(timestamps per the grammar `isDT`), and `fingerprint` when present is
well typed. -/
def alertOkWith (isDT : String → Bool) (j : Json) : Bool :=
  match j with
  | Json.obj fs =>
    dtFieldOk isDT fs "endsAt" && strFieldOk fs "generatorURL" &&
    dtFieldOk isDT fs "startsAt" && fingerprintOk fs &&
    strFieldOk fs "status" && anyDictFieldOk fs "labels" &&
    anyDictFieldOk fs "annotations"
  | _ => false

/-- Spec-side: the `alerts` field is absent or an array of well-typed
alert objects. -/
def alertsOkWith (isDT : String → Bool) (fs : List (String × Json)) : Bool :=
  match fs.lookup "alerts" with
  | none => true
  | some (Json.arr js) => js.all (alertOkWith isDT)
  | some _ => false

/-- Spec-side: no field of the payload is missing or mistyped — no
required field is absent or ill typed, and every present optional field
is well typed. -/
def eventOkWith (isDT : String → Bool) (j : Json) : Bool :=
  match j with
  | Json.obj fs =>
    alertsOkWith isDT fs && strFieldOk fs "externalURL" &&
    strFieldOk fs "groupKey" && strFieldOk fs "version" &&
    optAnyDictOk fs "commonAnnotations" && optAnyDictOk fs "commonLabels" &&
    optAnyDictOk fs "groupLabels" && strFieldOk fs "receiver" &&
    strFieldOk fs "status"
  | _ => false

/-- `eventOkWith` at the trivial timestamp validator (see
`parseAlertManagerEvent`: on payloads without an `alerts` field the
validator is never consulted). -/
def eventOk (j : Json) : Bool := eventOkWith (fun _ => true) j

/-- Spec-side, the original claim's reading of well-formedness: only the
REQUIRED fields are checked — externalURL, groupKey, version, receiver,
status, and the required fields of each alert element — while present
optional fields are not. This is the per-alert part: fingerprint, being
optional, is not checked. -/
def requiredAlertOkWith (isDT : String → Bool) (j : Json) : Bool :=
  match j with
  | Json.obj fs =>
    dtFieldOk isDT fs "endsAt" && strFieldOk fs "generatorURL" &&
    dtFieldOk isDT fs "startsAt" && strFieldOk fs "status" &&
    anyDictFieldOk fs "labels" && anyDictFieldOk fs "annotations"
  | _ => false

/-- Spec-side, the original claim's reading: no required field of the
payload or of an alert element is missing or mistyped. The optional
`alerts` field is inspected only so far as to reach the required
per-alert fields of its elements; its own typing, like that of the other
optional fields, is not a required-field condition. -/
def requiredOnlyOkWith (isDT : String → Bool) (j : Json) : Bool :=
  match j with
  | Json.obj fs =>
    (match fs.lookup "alerts" with
     | some (Json.arr js) => js.all (requiredAlertOkWith isDT)
     | _ => true) &&
    strFieldOk fs "externalURL" && strFieldOk fs "groupKey" &&
    strFieldOk fs "version" && strFieldOk fs "receiver" &&
    strFieldOk fs "status"
  | _ => false

/-- `requiredOnlyOkWith` at the trivial timestamp validator. -/
def requiredOnlyOk (j : Json) : Bool := requiredOnlyOkWith (fun _ => true) j

/-- A sample alert record used by witnesses. -/
def mkAlert (labels annots : List (String × String)) : PrometheusAlert :=
  { endsAt := "2021-01-01T00:00:00Z"
    generatorURL := "http://prom/graph"
    startsAt := "2021-01-01T00:00:00Z"
    fingerprint := some ""
    status := "firing"
    labels := labels
    annotations := annots }

/-- A sample event holding both a pod (name "p1", namespace "ns1") and a
node (name "n1"), used by the C2 witness. -/
def samplePodNodeEvent : PrometheusKubernetesAlert :=
  { pod := some ⟨⟨some "p1", some "ns1"⟩⟩
    node := some ⟨⟨some "n1", none⟩⟩ }

/-- A well-typed sample alert object used by witnesses; it carries no
"fingerprint" key. -/
def sampleAlertFields : List (String × Json) :=
  [("endsAt", Json.str "2021-01-01T00:10:00Z"),
   ("generatorURL", Json.str "http://prom/graph"),
   ("startsAt", Json.str "2021-01-01T00:00:00Z"),
   ("status", Json.str "firing"),
   ("labels", Json.obj
     [("alertname", Json.str "HighCPU"), ("severity", Json.str "critical")]),
   ("annotations", Json.obj [("summary", Json.str "CPU high")])]

/-- The record `sampleAlertFields` parses to, under any timestamp
validator accepting its two timestamp strings. -/
def sampleParsedAlertRaw : PrometheusAlertRaw :=
  { endsAt := "2021-01-01T00:10:00Z"
    generatorURL := "http://prom/graph"
    startsAt := "2021-01-01T00:00:00Z"
    fingerprint := some ""
    status := "firing"
    labels := [("alertname", Json.str "HighCPU"), ("severity", Json.str "critical")]
    annotations := [("summary", Json.str "CPU high")] }

/-- A concrete, non-trivial sample timestamp validator used by
witnesses; it accepts the 20-character timestamps of
`sampleAlertFields`. -/
def sampleDT (s : String) : Bool := decide (s.length = 20)

/-- A payload on which ingestion fails although every required field is
present and well typed: the optional `commonLabels` field is present but
mistyped — a string where a map is expected. -/
def cexPayloadFields : List (String × Json) :=
  [("externalURL", Json.str "http://am"),
   ("groupKey", Json.str "gk"),
   ("version", Json.str "4"),
   ("receiver", Json.str "robusta"),
   ("status", Json.str "firing"),
   ("commonLabels", Json.str "x")]

/-- A well-typed sample payload carrying no "alerts" key. -/
def samplePayloadFields : List (String × Json) :=
  [("externalURL", Json.str "http://am"),
   ("groupKey", Json.str "gk"),
   ("version", Json.str "4"),
   ("receiver", Json.str "robusta"),
   ("status", Json.str "firing")]

lemma matchCond_iff {s : List Char} {p q : Nat} :
    matchCond s p q = true ↔
      (s.drop p).take 13 = labelsPat ∧ p + 14 ≤ q ∧
      s.getD (q - 1) ' ' = ']' ∧ '\n' ∉ (s.take (q - 1)).drop (p + 13) ∧
      (q = s.length ∨ (q + 1 = s.length ∧ s.getD q ' ' = '\n')) := by
  simp [matchCond, validEnd, and_assoc]

lemma matchCond_of_matchSpanAt {s : List Char} {p q : Nat}
    (h : matchSpanAt s p = some q) : matchCond s p q = true := by
  unfold matchSpanAt at h
  by_cases h1 : matchCond s p s.length = true
  · simp [h1] at h
    exact h ▸ h1
  · by_cases h2 : matchCond s p (s.length - 1) = true
    · simp [h1, h2] at h
      exact h ▸ h2
    · simp [h1, h2] at h

lemma matchCond_none_of_spanAt_none {s : List Char} {p : Nat}
    (h : matchSpanAt s p = none) : ∀ q, matchCond s p q = false := by
  intro q
  by_contra hq
  rw [Bool.not_eq_false] at hq
  have hv := (matchCond_iff.mp hq).2.2.2.2
  unfold matchSpanAt at h
  rcases hv with hv | ⟨hv, _⟩
  · subst hv
    simp [hq] at h
  · have hq' : q = s.length - 1 := by omega
    subst hq'
    by_cases h1 : matchCond s p s.length = true
    · simp [h1] at h
    · simp [h1, hq] at h

lemma findMatchFrom_some {s : List Char} :
    ∀ {fuel start p q}, findMatchFrom s start fuel = some (p, q) →
      start ≤ p ∧ matchSpanAt s p = some q ∧
        ∀ p', start ≤ p' → p' < p → matchSpanAt s p' = none := by
  intro fuel
  induction fuel with
  | zero =>
    intro start p q h
    simp [findMatchFrom] at h
  | succ n ih =>
    intro start p q h
    unfold findMatchFrom at h
    cases hm : matchSpanAt s start with
    | some q0 =>
      rw [hm] at h
      simp only [Option.some.injEq, Prod.mk.injEq] at h
      obtain ⟨rfl, rfl⟩ := h
      exact ⟨le_refl _, hm, fun p' h1 h2 => absurd h2 (by omega)⟩
    | none =>
      rw [hm] at h
      obtain ⟨h1, h2, h3⟩ := ih h
      refine ⟨by omega, h2, ?_⟩
      intro p' hp1 hp2
      rcases eq_or_lt_of_le hp1 with rfl | hlt
      · exact hm
      · exact h3 p' (by omega) hp2

lemma findMatchFrom_none {s : List Char} :
    ∀ {fuel start}, findMatchFrom s start fuel = none →
      ∀ p', start ≤ p' → p' < start + fuel → matchSpanAt s p' = none := by
  intro fuel
  induction fuel with
  | zero =>
    intro start h p' h1 h2
    omega
  | succ n ih =>
    intro start h p' h1 h2
    unfold findMatchFrom at h
    cases hm : matchSpanAt s start with
    | some q0 => rw [hm] at h; exact Option.noConfusion h
    | none =>
      rw [hm] at h
      rcases eq_or_lt_of_le h1 with rfl | hlt
      · exact hm
      · exact ih h p' (by omega) (by omega)

lemma matchCond_le_length {s : List Char} {p q : Nat}
    (h : matchCond s p q = true) : p + 14 ≤ s.length ∧ q ≤ s.length := by
  obtain ⟨-, hpq, -, -, hv⟩ := matchCond_iff.mp h
  rcases hv with hv | ⟨hv, -⟩ <;> omega

lemma findMatch_none {s : List Char} (h : findMatch s = none) :
    ∀ p q, matchCond s p q = false := by
  intro p q
  by_contra hq
  rw [Bool.not_eq_false] at hq
  have hlen := matchCond_le_length hq
  have hnone := findMatchFrom_none h p (Nat.zero_le _) (by omega)
  have hfalse := matchCond_none_of_spanAt_none hnone q
  rw [hq] at hfalse
  exact Bool.noConfusion hfalse

lemma findMatch_some {s : List Char} {p q : Nat}
    (h : findMatch s = some (p, q)) :
    matchCond s p q = true ∧ ∀ p' q', p' < p → matchCond s p' q' = false := by
  obtain ⟨-, h2, h3⟩ := findMatchFrom_some h
  exact ⟨matchCond_of_matchSpanAt h2, fun p' q' hp' =>
    matchCond_none_of_spanAt_none (h3 p' (Nat.zero_le _) hp') q'⟩

lemma stripLabels_eq_of_findMatch_some {s : List Char} {p q : Nat}
    (h : findMatch s = some (p, q)) : stripLabels s = s.take p ++ s.drop q := by
  unfold stripLabels
  rw [h]

lemma stripLabels_length_lt {s : List Char} {p q : Nat}
    (h : findMatch s = some (p, q)) : (stripLabels s).length < s.length := by
  rw [stripLabels_eq_of_findMatch_some h]
  obtain ⟨-, hpq, -, -, hv⟩ := matchCond_iff.mp (findMatch_some h).1
  have hq : q ≤ s.length := by rcases hv with hv | ⟨hv, -⟩ <;> omega
  have hmin : min p s.length = p := min_eq_left (by omega)
  simp [List.length_append, List.length_take, List.length_drop, hmin]
  omega

lemma mem_of_getD {s : List Char} {i : Nat} {c d : Char}
    (h : i < s.length) (hg : s.getD i d = c) : c ∈ s := by
  subst hg
  rw [List.getD_eq_getElem s d h]
  exact List.getElem_mem h

lemma newline_not_in_parts {s : List Char} (hnl : '\n' ∉ s) (n m : Nat) :
    '\n' ∉ (s.take n).drop m :=
  fun hm => hnl (List.take_subset _ _ (List.drop_subset _ _ hm))

lemma bind_eq_ok {α β : Type} {x : Except String α} {f : α → Except String β}
    {b : β} (h : (x >>= f) = Except.ok b) :
    ∃ a, x = Except.ok a ∧ f a = Except.ok b := by
  cases x with
  | ok a =>
    simp only [Bind.bind, Except.bind] at h
    exact ⟨a, rfl, h⟩
  | error e => simp [Bind.bind, Except.bind] at h

lemma reqStr_isOk (fs : List (String × Json)) (k : String) :
    isOkE (reqStr fs k) = strFieldOk fs k := by
  unfold reqStr strFieldOk
  cases h : fs.lookup k with
  | none => rfl
  | some v => cases v <;> rfl

lemma reqDatetime_isOk (isDT : String → Bool) (fs : List (String × Json))
    (k : String) : isOkE (reqDatetime isDT fs k) = dtFieldOk isDT fs k := by
  unfold reqDatetime dtFieldOk
  cases h : fs.lookup k with
  | none => rfl
  | some v =>
    cases v with
    | str s => cases hd : isDT s <;> simp [hd, isOkE]
    | null => rfl
    | arr l => rfl
    | obj l => rfl

lemma reqAnyDict_isOk (fs : List (String × Json)) (k : String) :
    isOkE (reqAnyDict fs k) = anyDictFieldOk fs k := by
  unfold reqAnyDict anyDictFieldOk
  cases h : fs.lookup k with
  | none => rfl
  | some v => cases v <;> rfl

lemma optAnyDict_isOk (fs : List (String × Json)) (k : String) :
    isOkE (optAnyDict fs k) = optAnyDictOk fs k := by
  unfold optAnyDict optAnyDictOk
  cases h : fs.lookup k with
  | none => rfl
  | some v => cases v <;> rfl

lemma fingerprint_isOk (fs : List (String × Json)) :
    isOkE (optFingerprint fs) = fingerprintOk fs := by
  unfold optFingerprint fingerprintOk
  cases h : fs.lookup "fingerprint" with
  | none => rfl
  | some v => cases v <;> rfl

lemma parseAlert_isOk (isDT : String → Bool) (j : Json) :
    isOkE (parsePrometheusAlert isDT j) = alertOkWith isDT j := by
  cases j with
  | null => rfl
  | str s => rfl
  | arr l => rfl
  | obj fs =>
    simp only [parsePrometheusAlert, alertOkWith, ← reqStr_isOk,
      ← fingerprint_isOk, ← reqAnyDict_isOk, ← reqDatetime_isOk]
    cases reqDatetime isDT fs "endsAt" <;> cases reqStr fs "generatorURL" <;>
      cases reqDatetime isDT fs "startsAt" <;> cases optFingerprint fs <;>
      cases reqStr fs "status" <;> cases reqAnyDict fs "labels" <;>
      cases reqAnyDict fs "annotations" <;>
      simp [isOkE, Bind.bind, Except.bind]

lemma parseAlerts_isOk (isDT : String → Bool) (js : List Json) :
    isOkE (parseAlerts isDT js) = js.all (alertOkWith isDT) := by
  induction js with
  | nil => rfl
  | cons j rest ih =>
    simp only [parseAlerts, List.all_cons]
    rw [← parseAlert_isOk, ← ih]
    cases parsePrometheusAlert isDT j <;> cases parseAlerts isDT rest <;>
      simp [isOkE, Bind.bind, Except.bind]

lemma alertsField_isOk (isDT : String → Bool) (fs : List (String × Json)) :
    isOkE (alertsField isDT fs) = alertsOkWith isDT fs := by
  unfold alertsField alertsOkWith
  cases h : fs.lookup "alerts" with
  | none => rfl
  | some v =>
    cases v with
    | arr js => exact parseAlerts_isOk isDT js
    | null => rfl
    | str s => rfl
    | obj l => rfl

lemma parseEventWith_isOk (isDT : String → Bool) (j : Json) :
    isOkE (parseAlertManagerEventWith isDT j) = eventOkWith isDT j := by
  cases j with
  | null => rfl
  | str s => rfl
  | arr l => rfl
  | obj fs =>
    simp only [parseAlertManagerEventWith, eventOkWith, ← alertsField_isOk,
      ← reqStr_isOk, ← optAnyDict_isOk]
    cases alertsField isDT fs <;> cases reqStr fs "externalURL" <;>
      cases reqStr fs "groupKey" <;> cases reqStr fs "version" <;>
      cases optAnyDict fs "commonAnnotations" <;>
      cases optAnyDict fs "commonLabels" <;>
      cases optAnyDict fs "groupLabels" <;>
      cases reqStr fs "receiver" <;> cases reqStr fs "status" <;>
      simp [isOkE, Bind.bind, Except.bind]

lemma parseEvent_isOk (j : Json) :
    isOkE (parseAlertManagerEvent j) = eventOk j :=
  parseEventWith_isOk (fun _ => true) j

lemma parseAlert_fingerprint_default {isDT : String → Bool}
    {fs : List (String × Json)} {a : PrometheusAlertRaw}
    (h : parsePrometheusAlert isDT (Json.obj fs) = Except.ok a)
    (hab : fs.lookup "fingerprint" = none) : a.fingerprint = some "" := by
  simp only [parsePrometheusAlert] at h
  obtain ⟨v1, h1, h⟩ := bind_eq_ok h
  obtain ⟨v2, h2, h⟩ := bind_eq_ok h
  obtain ⟨v3, h3, h⟩ := bind_eq_ok h
  obtain ⟨fp, hfp, h⟩ := bind_eq_ok h
  obtain ⟨v4, h4, h⟩ := bind_eq_ok h
  obtain ⟨lm, hlm, h⟩ := bind_eq_ok h
  obtain ⟨am, ham, h⟩ := bind_eq_ok h
  have hdef : optFingerprint fs = Except.ok (some "") := by
    unfold optFingerprint
    rw [hab]
  rw [hdef] at hfp
  injection hfp with hfp
  injection h with h
  rw [← h, ← hfp]

lemma parseEvent_defaults {isDT : String → Bool} {fs : List (String × Json)}
    {ev : AlertManagerEvent}
    (h : parseAlertManagerEventWith isDT (Json.obj fs) = Except.ok ev) :
    (fs.lookup "alerts" = none → ev.alerts = []) ∧
    (fs.lookup "commonAnnotations" = none → ev.commonAnnotations = none) ∧
    (fs.lookup "commonLabels" = none → ev.commonLabels = none) ∧
    (fs.lookup "groupLabels" = none → ev.groupLabels = none) := by
  simp only [parseAlertManagerEventWith] at h
  obtain ⟨al, hal, h⟩ := bind_eq_ok h
  obtain ⟨v1, h1, h⟩ := bind_eq_ok h
  obtain ⟨v2, h2, h⟩ := bind_eq_ok h
  obtain ⟨v3, h3, h⟩ := bind_eq_ok h
  obtain ⟨ca, hca, h⟩ := bind_eq_ok h
  obtain ⟨cl, hcl, h⟩ := bind_eq_ok h
  obtain ⟨gl, hgl, h⟩ := bind_eq_ok h
  obtain ⟨v4, h4, h⟩ := bind_eq_ok h
  obtain ⟨v5, h5, h⟩ := bind_eq_ok h
  injection h with h
  refine ⟨?_, ?_, ?_, ?_⟩
  · intro habs
    have hdef : alertsField isDT fs = Except.ok [] := by
      unfold alertsField
      rw [habs]
    rw [hdef] at hal
    injection hal with hal
    rw [← h, ← hal]
  · intro habs
    have hdef : optAnyDict fs "commonAnnotations" = Except.ok none := by
      unfold optAnyDict
      rw [habs]
    rw [hdef] at hca
    injection hca with hca
    rw [← h, ← hca]
  · intro habs
    have hdef : optAnyDict fs "commonLabels" = Except.ok none := by
      unfold optAnyDict
      rw [habs]
    rw [hdef] at hcl
    injection hcl with hcl
    rw [← h, ← hcl]
  · intro habs
    have hdef : optAnyDict fs "groupLabels" = Except.ok none := by
      unfold optAnyDict
      rw [habs]
    rw [hdef] at hgl
    injection hgl with hgl
    rw [← h, ← hgl]

/-- C1: the severity mapping is total and deterministic: "critical" maps
to HIGH, "error" to MEDIUM, "warning" to LOW, "info" to INFO, and every
other value — including the empty string and an absent label (`none`) —
maps to INFO; being a total function, it never raises. -/
theorem severity_map_total :
    severityGet (some "critical") = FindingSeverity.HIGH ∧
    severityGet (some "error") = FindingSeverity.MEDIUM ∧
    severityGet (some "warning") = FindingSeverity.LOW ∧
    severityGet (some "info") = FindingSeverity.INFO ∧
    severityGet none = FindingSeverity.INFO ∧
    ∀ s : String, s ∉ ["critical", "error", "warning", "info"] →
      severityGet (some s) = FindingSeverity.INFO := by
  refine ⟨by decide, by decide, by decide, by decide, by decide, ?_⟩
  intro s hs
  simp only [List.mem_cons, List.not_mem_nil, or_false, not_or] at hs
  obtain ⟨h1, h2, h3, h4⟩ := hs
  have e1 : (s == "critical") = false := by simp [h1]
  have e2 : (s == "error") = false := by simp [h2]
  have e3 : (s == "warning") = false := by simp [h3]
  have e4 : (s == "info") = false := by simp [h4]
  simp [severityGet, SEVERITY_MAP, List.lookup, e1, e2, e3, e4]

/-- Witness for C1 at the unrecognized severity "fatal". -/
theorem severity_map_total_witness :
    ("fatal" : String) ∉ ["critical", "error", "warning", "info"] ∧
    severityGet (some "fatal") = FindingSeverity.INFO :=
  ⟨by decide, severity_map_total.2.2.2.2.2 "fatal" (by decide)⟩

/-- C2: subject resolution follows the fixed priority order pod, job,
deployment, daemonset, node; the first present reference determines
kind, name and namespace (namespace absent for node), and with none
present the subject is NONE with absent name and namespace. -/
theorem alert_subject_priority (e : PrometheusKubernetesAlert) :
    (∀ p, e.pod = some p →
      e.get_alert_subject =
        ⟨p.metadata.name, FindingSubjectType.TYPE_POD, p.metadata.namespace'⟩) ∧
    (e.pod = none → ∀ j, e.job = some j →
      e.get_alert_subject =
        ⟨j.metadata.name, FindingSubjectType.TYPE_JOB, j.metadata.namespace'⟩) ∧
    (e.pod = none → e.job = none → ∀ d, e.deployment = some d →
      e.get_alert_subject =
        ⟨d.metadata.name, FindingSubjectType.TYPE_DEPLOYMENT, d.metadata.namespace'⟩) ∧
    (e.pod = none → e.job = none → e.deployment = none → ∀ d, e.daemonset = some d →
      e.get_alert_subject =
        ⟨d.metadata.name, FindingSubjectType.TYPE_DAEMONSET, d.metadata.namespace'⟩) ∧
    (e.pod = none → e.job = none → e.deployment = none → e.daemonset = none →
      ∀ n, e.node = some n →
      e.get_alert_subject = ⟨n.metadata.name, FindingSubjectType.TYPE_NODE, none⟩) ∧
    (e.pod = none → e.job = none → e.deployment = none → e.daemonset = none →
      e.node = none →
      e.get_alert_subject = ⟨none, FindingSubjectType.TYPE_NONE, none⟩) := by
  refine ⟨?_, ?_, ?_, ?_, ?_, ?_⟩
  · intro p hp
    simp [PrometheusKubernetesAlert.get_alert_subject, hp]
  · intro hp j hj
    simp [PrometheusKubernetesAlert.get_alert_subject, hp, hj]
  · intro hp hj d hd
    simp [PrometheusKubernetesAlert.get_alert_subject, hp, hj, hd]
  · intro hp hj hd d hds
    simp [PrometheusKubernetesAlert.get_alert_subject, hp, hj, hd, hds]
  · intro hp hj hd hds n hn
    simp [PrometheusKubernetesAlert.get_alert_subject, hp, hj, hd, hds, hn]
  · intro hp hj hd hds hn
    simp [PrometheusKubernetesAlert.get_alert_subject, hp, hj, hd, hds, hn]

/-- Witness for C2: with both a pod ("p1"/"ns1") and a node present, the
subject is POD with name "p1" and namespace "ns1". -/
theorem alert_subject_priority_witness :
    samplePodNodeEvent.get_alert_subject =
      ⟨some "p1", FindingSubjectType.TYPE_POD, some "ns1"⟩ :=
  (alert_subject_priority samplePodNodeEvent).1 ⟨⟨some "p1", some "ns1"⟩⟩ rfl

/-- C3: the title is the "summary" annotation verbatim when present and
non-empty; otherwise it is the "alertname" label, defaulting to the
empty string when that label is absent. -/
theorem title_rule (e : PrometheusKubernetesAlert) (a : PrometheusAlert)
    (ha : e.alert = some a) :
    (∀ s, a.annotations.lookup "summary" = some s → s ≠ "" →
      e.get_title = some s) ∧
    ((a.annotations.lookup "summary" = none ∨
        a.annotations.lookup "summary" = some "") →
      e.get_title = some ((a.labels.lookup "alertname").getD "")) := by
  constructor
  · intro s hs hne
    simp [PrometheusKubernetesAlert.get_title, Option.map, ha, truthyStr, hs, hne]
  · rintro (h | h) <;>
      simp [PrometheusKubernetesAlert.get_title, Option.map, ha, truthyStr, h]

/-- Witness for C3: no "summary" annotation and `alertname = "HighCPU"`
yields the title "HighCPU". -/
theorem title_rule_witness :
    PrometheusKubernetesAlert.get_title
        { alert := some (mkAlert [("alertname", "HighCPU")] []) } =
      some "HighCPU" :=
  (title_rule { alert := some (mkAlert [("alertname", "HighCPU")] []) }
    (mkAlert [("alertname", "HighCPU")] []) rfl).2 (Or.inl rfl)

/-- C4: the description is the empty string when the "description"
annotation is absent, and otherwise the annotation's value with the
trailing `LABELS = map[...]` pattern stripped; in particular
"Pod crashed LABELS = map[severity:critical]" yields "Pod crashed ". -/
theorem description_rule (e : PrometheusKubernetesAlert) (a : PrometheusAlert)
    (ha : e.alert = some a) :
    (a.annotations.lookup "description" = none → e.get_description = some "") ∧
    (∀ d, a.annotations.lookup "description" = some d →
      e.get_description = some (String.mk (stripLabels d.data))) ∧
    String.mk (stripLabels "Pod crashed LABELS = map[severity:critical]".data) =
      "Pod crashed " := by
  refine ⟨?_, ?_, by decide⟩
  · intro h
    simp [PrometheusKubernetesAlert.get_description, Option.map, ha, truthyStr, h]
  · intro d hd
    by_cases hd0 : d = ""
    · subst hd0
      simp [PrometheusKubernetesAlert.get_description, Option.map, ha, truthyStr, hd]
      decide
    · simp [PrometheusKubernetesAlert.get_description, Option.map, ha, truthyStr, hd, hd0]

/-- Witness for C4 at the description from the spec's example. -/
theorem description_rule_witness :
    PrometheusKubernetesAlert.get_description
        { alert := some (mkAlert []
            [("description", "Pod crashed LABELS = map[severity:critical]")]) } =
      some "Pod crashed " := by
  have h := (description_rule
    { alert := some (mkAlert []
        [("description", "Pod crashed LABELS = map[severity:critical]")]) }
    (mkAlert [] [("description", "Pod crashed LABELS = map[severity:critical]")])
    rfl)
  rw [h.2.1 "Pod crashed LABELS = map[severity:critical]" rfl, h.2.2]

/-- C7: the aggregation key of the finding built by
`create_default_finding` is the event's alert name, unchanged. -/
theorem aggregation_key_verbatim (e : PrometheusKubernetesAlert)
    (a : PrometheusAlert) (ha : e.alert = some a) :
    ∃ f, e.create_default_finding = some f ∧ f.aggregation_key = e.alert_name := by
  simp only [PrometheusKubernetesAlert.create_default_finding,
    PrometheusKubernetesAlert.get_title, PrometheusKubernetesAlert.get_description,
    ha, Option.map]
  exact ⟨_, rfl, rfl⟩

/-- Witness for C7 at a concrete event named "HighCPU". -/
theorem aggregation_key_verbatim_witness :
    ∃ f, PrometheusKubernetesAlert.create_default_finding
        { alert := some (mkAlert [] []), alert_name := some "HighCPU" } = some f ∧
      f.aggregation_key = some "HighCPU" :=
  aggregation_key_verbatim
    { alert := some (mkAlert [] []), alert_name := some "HighCPU" }
    (mkAlert [] []) rfl

/-- C8: with an alert record present, title, description and finding
construction are total: they return a value for every combination of
absent or unexpected annotations and labels (severity mapping is total
by C1's statement, being a function into `FindingSeverity`). -/
theorem normalization_total (e : PrometheusKubernetesAlert)
    (a : PrometheusAlert) (ha : e.alert = some a) :
    e.get_title.isSome ∧ e.get_description.isSome ∧
      e.create_default_finding.isSome := by
  refine ⟨?_, ?_, ?_⟩
  · simp [PrometheusKubernetesAlert.get_title, ha]
  · simp [PrometheusKubernetesAlert.get_description, ha]
  · simp [PrometheusKubernetesAlert.create_default_finding,
      PrometheusKubernetesAlert.get_title, PrometheusKubernetesAlert.get_description,
      ha, Option.map]

/-- Witness for C8 at an event whose alert has no labels or annotations. -/
theorem normalization_total_witness :
    (PrometheusKubernetesAlert.get_title
        { alert := some (mkAlert [] []) }).isSome ∧
    (PrometheusKubernetesAlert.get_description
        { alert := some (mkAlert [] []) }).isSome ∧
    (PrometheusKubernetesAlert.create_default_finding
        { alert := some (mkAlert [] []) }).isSome :=
  normalization_total { alert := some (mkAlert [] []) } (mkAlert [] []) rfl

/-- Counterexample for C6: on the description
"LABELS = map[z]\nLABELS = map[w]" one strip removes only the second
segment, leaving "LABELS = map[z]\n"; the trailing newline then lets the
`$` anchor match before it, so a second strip leaves just "\n". -/
theorem strip_not_idempotent_cex :
    stripLabels (stripLabels "LABELS = map[z]\nLABELS = map[w]".data) ≠
      stripLabels "LABELS = map[z]\nLABELS = map[w]".data := by decide

/-- C6 amended: description stripping is idempotent for every description
that contains no newline character. -/
theorem strip_idempotent_no_newline (s : List Char) (hnl : '\n' ∉ s) :
    stripLabels (stripLabels s) = stripLabels s := by
  cases h : findMatch s with
  | none =>
    have hs : stripLabels s = s := by unfold stripLabels; rw [h]
    rw [hs]
    exact hs
  | some pq =>
    obtain ⟨p, q⟩ := pq
    obtain ⟨hc, hleft⟩ := findMatch_some h
    obtain ⟨hpre, hpq, hbr, hmid, hv⟩ := matchCond_iff.mp hc
    have hq : q = s.length := by
      rcases hv with hv | ⟨hv1, hv2⟩
      · exact hv
      · exact absurd (mem_of_getD (by omega) hv2) hnl
    subst hq
    have hr : stripLabels s = s.take p := by
      rw [stripLabels_eq_of_findMatch_some h, List.drop_length, List.append_nil]
    rw [hr]
    have hple : p ≤ s.length := by omega
    have hnl' : '\n' ∉ s.take p := fun hm => hnl (List.take_subset _ _ hm)
    cases h2 : findMatch (s.take p) with
    | none => unfold stripLabels; rw [h2]
    | some pq2 =>
      exfalso
      obtain ⟨p', q'⟩ := pq2
      obtain ⟨hc', -⟩ := findMatch_some h2
      obtain ⟨hpre', hpq', hbr', hmid', hv'⟩ := matchCond_iff.mp hc'
      have hlen_take : (s.take p).length = p := by
        rw [List.length_take]; omega
      have hq' : q' = p := by
        rcases hv' with hv' | ⟨hv1', hv2'⟩
        · omega
        · exact absurd (mem_of_getD (by omega) hv2') hnl'
      have hplt : p' < p := by omega
      have hpre'' : (s.drop p').take 13 = labelsPat := by
        rw [← hpre', List.drop_take, List.take_take, min_eq_left (by omega)]
      have hcnew : matchCond s p' s.length = true := by
        rw [matchCond_iff]
        exact ⟨hpre'', by omega, hbr, newline_not_in_parts hnl _ _, Or.inl rfl⟩
      have hfalse := hleft p' s.length hplt
      rw [hcnew] at hfalse
      exact Bool.noConfusion hfalse

/-- Witness for the amended C6 at a concrete newline-free description. -/
theorem strip_idempotent_no_newline_witness :
    ('\n' ∉ "Pod crashed LABELS = map[severity:critical]".data) ∧
    stripLabels (stripLabels "Pod crashed LABELS = map[severity:critical]".data) =
      stripLabels "Pod crashed LABELS = map[severity:critical]".data :=
  ⟨by decide, strip_idempotent_no_newline _ (by decide)⟩

/-- C10: stripping changes the description exactly when the regex
`LABELS = map\[.*\]$` matches some span of it (a span beginning with the
literal `LABELS = map[`, containing no newline, closed by `]` at the end
of the string or immediately before one final trailing newline), and in
that case only such a trailing span is removed, all leading content kept. -/
theorem strip_trailing_only (s : List Char) :
    (stripLabels s = s ↔ ∀ p q, matchCond s p q = false) ∧
    (stripLabels s ≠ s →
      ∃ p q, matchCond s p q = true ∧ stripLabels s = s.take p ++ s.drop q) := by
  cases h : findMatch s with
  | none =>
    have hs : stripLabels s = s := by unfold stripLabels; rw [h]
    exact ⟨⟨fun _ => findMatch_none h, fun _ => hs⟩, fun hne => absurd hs hne⟩
  | some pq =>
    obtain ⟨p, q⟩ := pq
    have hc := (findMatch_some h).1
    have hne : stripLabels s ≠ s := by
      intro hEq
      have hlt := stripLabels_length_lt h
      rw [hEq] at hlt
      exact lt_irrefl _ hlt
    refine ⟨⟨fun hEq => absurd hEq hne, fun hall => ?_⟩,
      fun _ => ⟨p, q, hc, stripLabels_eq_of_findMatch_some h⟩⟩
    have hfalse := hall p q
    rw [hc] at hfalse
    exact Bool.noConfusion hfalse

/-- Witness for C10 at a concrete changed description. -/
theorem strip_trailing_only_witness :
    (stripLabels "x LABELS = map[a]".data ≠ "x LABELS = map[a]".data) ∧
    ∃ p q, matchCond "x LABELS = map[a]".data p q = true ∧
      stripLabels "x LABELS = map[a]".data =
        ("x LABELS = map[a]".data.take p) ++ ("x LABELS = map[a]".data.drop q) :=
  ⟨by decide, (strip_trailing_only _).2 (by decide)⟩

/-- Counterexample for C5: a payload whose five required fields are all
present as strings — and which carries no alerts, so no per-alert
required field can be at fault — still fails to decode, because the
optional `commonLabels` field is present but mistyped (a string where a
map is expected). Ingestion failure is therefore not characterized by
required fields alone. -/
theorem ingestion_required_only_cex :
    isOkE (parseAlertManagerEvent (Json.obj cexPayloadFields)) = false ∧
    requiredOnlyOk (Json.obj cexPayloadFields) = true :=
  ⟨rfl, rfl⟩

/-- C5 amended: uniformly in the timestamp grammar `isDT` the library
applies to the per-alert datetime strings, ingestion fails with a decode
error exactly when some field is missing or mistyped — a required field
(externalURL, groupKey, version, receiver, status, or a required
per-alert field) missing or mistyped, or a present optional field
(alerts, fingerprint, commonAnnotations, commonLabels, groupLabels)
mistyped. The optional fields default to empty-equivalents when absent
(the three common maps to `none`, `alerts` to `[]`), and an absent
per-alert fingerprint is normalized to the empty string — never null. -/
theorem ingestion_decode_iff_amended (isDT : String → Bool) :
    (∀ j, isOkE (parseAlertManagerEventWith isDT j) = eventOkWith isDT j) ∧
    (∀ fs a, parsePrometheusAlert isDT (Json.obj fs) = Except.ok a →
      fs.lookup "fingerprint" = none → a.fingerprint = some "") ∧
    (∀ fs ev, parseAlertManagerEventWith isDT (Json.obj fs) = Except.ok ev →
      (fs.lookup "commonAnnotations" = none → ev.commonAnnotations = none) ∧
      (fs.lookup "commonLabels" = none → ev.commonLabels = none) ∧
      (fs.lookup "groupLabels" = none → ev.groupLabels = none) ∧
      (fs.lookup "alerts" = none → ev.alerts = [])) := by
  refine ⟨parseEventWith_isOk isDT, ?_, ?_⟩
  · intro fs a h hab
    exact parseAlert_fingerprint_default h hab
  · intro fs ev h
    obtain ⟨h1, h2, h3, h4⟩ := parseEvent_defaults h
    exact ⟨h2, h3, h4, h1⟩

/-- Witness for the amended C5, at a concrete timestamp validator and a
concrete alert object without a "fingerprint" key: it parses
successfully and its fingerprint is the empty string. -/
theorem ingestion_decode_iff_amended_witness :
    parsePrometheusAlert sampleDT (Json.obj sampleAlertFields) =
      Except.ok sampleParsedAlertRaw ∧
    sampleParsedAlertRaw.fingerprint = some "" :=
  ⟨rfl, (ingestion_decode_iff_amended sampleDT).2.1 sampleAlertFields
    sampleParsedAlertRaw rfl rfl⟩

/-- C9: a payload whose "alerts" field is entirely absent but is
otherwise well typed is accepted, and the parsed payload has an empty
alert sequence. -/
theorem absent_alerts_accepted (fs : List (String × Json))
    (hOk : eventOk (Json.obj fs) = true) (habs : fs.lookup "alerts" = none) :
    ∃ ev, parseAlertManagerEvent (Json.obj fs) = Except.ok ev ∧
      ev.alerts = [] := by
  have h := parseEvent_isOk (Json.obj fs)
  rw [hOk] at h
  cases hp : parseAlertManagerEvent (Json.obj fs) with
  | error e =>
    rw [hp] at h
    simp [isOkE] at h
  | ok ev => exact ⟨ev, rfl, (parseEvent_defaults hp).1 habs⟩

/-- Witness for C9 at a concrete payload without an "alerts" key. -/
theorem absent_alerts_accepted_witness :
    (eventOk (Json.obj samplePayloadFields) = true) ∧
    (samplePayloadFields.lookup "alerts" = none) ∧
    ∃ ev, parseAlertManagerEvent (Json.obj samplePayloadFields) =
        Except.ok ev ∧ ev.alerts = [] :=
  ⟨rfl, rfl, absent_alerts_accepted samplePayloadFields rfl rfl⟩

end Robusta
